import Mathlib

/-!
Verification of the bybit-logger process-supervisor configuration and the
supervisor core it exercises.

The repository ships a declarative configuration (`src/ecosystem.config.js`
and a secondary variant `src/unnamed/part_000`) consumed by an external
process-management runtime.  The configuration itself is embedded below
verbatim.  The supervisor behaviour (restart/backoff state machine,
memory-watch loop, log capture, shutdown sequencing) has no source under
`src/`; those operations are modelled from the specification, as marked on
each definition.
-/

set_option autoImplicit false
set_option maxRecDepth 10000

namespace BybitLogger

/-- Embedding of one entry of the `apps` array of `ecosystem.config.js`:
the recognized keys with their configured values. -/
structure AppConfig where
  name : String
  script : String
  interpreter : String
  autorestart : Bool
  restart_delay : Nat
  max_restarts : Nat
  min_uptime : String
  max_memory_restart : String
  instances : Nat
  exec_mode : String
  watch : Bool
  ignore_watch : List String
  exp_backoff_restart_delay : Nat
  log_date_format : String
  error_file : String
  out_file : String
  log_file : String
  time : Bool
  kill_timeout : Nat
deriving Repr, DecidableEq

/-- The single app entry of `src/ecosystem.config.js` (`apps[0]`),
field for field. -/
def bybitLogger : AppConfig :=
  { name := "bybit-logger"
    script := "realtime_logger.py"
    interpreter := "./venv/bin/python"
    autorestart := true
    restart_delay := 5000
    max_restarts := 10
    min_uptime := "30s"
    max_memory_restart := "200M"
    instances := 1
    exec_mode := "fork"
    watch := false
    ignore_watch := ["node_modules", "logs", "*.log"]
    exp_backoff_restart_delay := 100
    log_date_format := "YYYY-MM-DD HH:mm:ss Z"
    error_file := "./logs/bybit-logger-error.log"
    out_file := "./logs/bybit-logger-out.log"
    log_file := "./logs/bybit-logger-combined.log"
    time := true
    kill_timeout := 5000 }

/-- The keys present in the `apps[0]` mapping of `src/ecosystem.config.js`. -/
def ecosystemKeys : List String :=
  ["name", "script", "interpreter", "autorestart", "restart_delay",
   "max_restarts", "min_uptime", "max_memory_restart", "instances",
   "exec_mode", "watch", "ignore_watch", "exp_backoff_restart_delay",
   "log_date_format", "error_file", "out_file", "log_file", "time",
   "kill_timeout"]

/-- The keys present in the `apps[0]` mapping of the secondary configuration
`src/unnamed/part_000`. -/
def part000Keys : List String :=
  ["name", "script", "interpreter", "restart_on_exit", "watch"]

/-- Modelled from the spec: the recognized configuration keys enumerated in
the configuration-format interface (spec section 6). -/
def recognizedKeys : List String :=
  ["name", "script", "interpreter", "autorestart", "restart_delay",
   "exp_backoff_restart_delay", "max_restarts", "min_uptime",
   "max_memory_restart", "instances", "exec_mode", "watch", "ignore_watch",
   "log_date_format", "error_file", "out_file", "log_file", "time",
   "kill_timeout"]

/-- Modelled from the spec: the static validator of spec section 9, which
accepts a configuration exactly when every key of the mapping is one of the
recognized keys (unknown keys are rejected). -/
def validKeys (keys : List String) : Bool :=
  keys.all (fun k => recognizedKeys.contains k)

/-- Decimal digits to a number, most significant first; `none` on a
non-digit character. -/
def natOfDigits : List Char → Nat → Option Nat
  | [], acc => some acc
  | c :: cs, acc => if c.isDigit then natOfDigits cs (10 * acc + (c.toNat - 48)) else none

/-- Modelled from the spec: parsing of a duration string such as `"30s"`
(spec section 6, `min_uptime` is a duration string) into milliseconds. -/
def parseDurationMs (s : String) : Nat :=
  match s.data.getLast? with
  | some 's' => 1000 * ((natOfDigits s.data.dropLast 0).getD 0)
  | _ => (natOfDigits s.data 0).getD 0

/-- Modelled from the spec: parsing of a size string such as `"200M"`
(spec section 6, `max_memory_restart` is a size string) into bytes. -/
def parseSizeBytes (s : String) : Nat :=
  match s.data.getLast? with
  | some 'G' => 1073741824 * ((natOfDigits s.data.dropLast 0).getD 0)
  | some 'M' => 1048576 * ((natOfDigits s.data.dropLast 0).getD 0)
  | some 'K' => 1024 * ((natOfDigits s.data.dropLast 0).getD 0)
  | _ => (natOfDigits s.data 0).getD 0

/-- Modelled from the spec: the restart policy and resource limits the
Supervisor enforces (spec section 3), derived from the configuration. -/
structure Policy where
  maxRestarts : Nat
  windowLen : Nat
  minUptimeMs : Nat
  baseDelay : Nat
  backoffIncr : Nat
  memLimitBytes : Nat
  killTimeoutMs : Nat
deriving Repr, DecidableEq

/-- The policy induced by `apps[0]` of `src/ecosystem.config.js`; the
restart-count window is the spec default of 60 seconds. -/
def bybitPolicy : Policy :=
  { maxRestarts := bybitLogger.max_restarts
    windowLen := 60000
    minUptimeMs := parseDurationMs bybitLogger.min_uptime
    baseDelay := bybitLogger.restart_delay
    backoffIncr := bybitLogger.exp_backoff_restart_delay
    memLimitBytes := parseSizeBytes bybitLogger.max_memory_restart
    killTimeoutMs := bybitLogger.kill_timeout }

/-- Modelled from the spec: backoff delay for restart attempt `k` is
base delay plus `k` times the exponential increment (spec section 4.1). -/
def backoffDelay (p : Policy) (k : Nat) : Nat :=
  p.baseDelay + k * p.backoffIncr

/-- Modelled from the spec: the lifecycle phases of spec section 4.1. -/
inductive Phase where
  | Starting
  | Running
  | Stopping
  | Crashed
  | Terminated
deriving Repr, DecidableEq

/-- Modelled from the spec: the error taxonomy of spec section 7 restricted
to the crash-class causes that schedule a restart cycle. -/
inductive RestartReason where
  | unexpectedExit
  | spawnFailure
  | memoryLimitExceeded
deriving Repr, DecidableEq

/-- Modelled from the spec: the RuntimeState mutated only by the Supervisor
(spec section 3): lifecycle phase, consecutive-restart counter,
counter-window start timestamp, start timestamp, number of alive child
instances, count of forceful-termination signals sent, whether a
supervisor-initiated stop was requested, the delay of the currently
scheduled restart attempt (if any), and the trail of crash-class reasons
logged so far. -/
structure RuntimeState where
  phase : Phase
  counter : Nat
  windowStart : Nat
  startTime : Nat
  alive : Nat
  forcefulSignals : Nat
  stopRequested : Bool
  scheduledDelay : Option Nat
  reasons : List RestartReason
deriving Repr, DecidableEq

/-- The RuntimeState created at Supervisor start (spec section 3). -/
def initState : RuntimeState :=
  { phase := Phase.Starting
    counter := 0
    windowStart := 0
    startTime := 0
    alive := 0
    forcefulSignals := 0
    stopRequested := false
    scheduledDelay := none
    reasons := [] }

/-- Modelled from the spec: the events driving the Supervisor (spec
sections 4.1, 4.2, 4.4 and 5): spawn outcome, unexpected exit, memory
sample, reaching min_uptime while Running, expiry of a scheduled backoff
delay, the operator stop request, child exit during shutdown, and the
kill-timeout timer firing. -/
inductive Event where
  | spawnOk (t : Nat)
  | spawnFail (t : Nat)
  | crash (t : Nat)
  | memSample (bytes t : Nat)
  | uptimeReached (t : Nat)
  | backoffElapsed
  | stopRequest
  | childExited
  | killTimeoutFired
deriving Repr, DecidableEq

/-- Modelled from the spec: the shared crash cycle (spec sections 4.1 and
7).  A crash-class event at time `t` records its reason, drops the child,
resets the counter window if it has elapsed, and then either schedules the
next restart attempt (`Crashed`, backoff delay for attempt counter+1) when
the in-window counter is below `max_restarts`, or is fatal (`Terminated`,
no further auto-restart) when the window cap is reached.  The immediate
`Crashed→Terminated` resolution of the cap-exceeded case is folded into
this step.  `rolledCounter` and `rolledWindowStart` implement the
counter-window reset: the window start timestamp (and with it the counter)
resets when the window has elapsed at the time of the crash. -/
def rolledCounter (p : Policy) (t : Nat) (s : RuntimeState) : Nat :=
  if p.windowLen ≤ t - s.windowStart then 0 else s.counter

def rolledWindowStart (p : Policy) (t : Nat) (s : RuntimeState) : Nat :=
  if p.windowLen ≤ t - s.windowStart then t else s.windowStart

def crashCycle (p : Policy) (r : RestartReason) (t : Nat) (s : RuntimeState) :
    RuntimeState :=
  if rolledCounter p t s < p.maxRestarts then
    { s with phase := Phase.Crashed, alive := 0,
             counter := rolledCounter p t s,
             windowStart := rolledWindowStart p t s,
             reasons := s.reasons ++ [r],
             scheduledDelay := some (backoffDelay p (rolledCounter p t s + 1)) }
  else
    { s with phase := Phase.Terminated, alive := 0,
             counter := rolledCounter p t s,
             windowStart := rolledWindowStart p t s,
             reasons := s.reasons ++ [r], scheduledDelay := none }

/-- Modelled from the spec: one transition of the restart/backoff state
machine (spec sections 4.1, 4.2, 4.4 and 5).  `Starting→Running` on
successful spawn; spawn failure is treated identically to a crash;
`Running→Crashed` on unexpected exit; a memory sample at or above the
ceiling forces a restart through the crash path; reaching min_uptime while
Running resets the counter; `Crashed→Starting` when the scheduled backoff
delay elapses (the attempt increments the window counter); a stop request
moves a live child to `Stopping` (and a crashed, child-less state straight
to `Terminated`), abandoning any in-flight backoff wait;
`Stopping→Terminated` when the child confirms exit or, after the
kill-timeout fires, by a single forceful-termination signal.  Every other
event/phase combination leaves the state unchanged. -/
def step (p : Policy) (s : RuntimeState) (e : Event) : RuntimeState :=
  match e with
  | Event.spawnOk t =>
    if s.phase = Phase.Starting then
      { s with phase := Phase.Running, startTime := t, alive := 1,
               scheduledDelay := none }
    else s
  | Event.spawnFail t =>
    if s.phase = Phase.Starting then crashCycle p RestartReason.spawnFailure t s
    else s
  | Event.crash t =>
    if s.phase = Phase.Running then crashCycle p RestartReason.unexpectedExit t s
    else s
  | Event.memSample bytes t =>
    if s.phase = Phase.Running ∧ p.memLimitBytes ≤ bytes then
      crashCycle p RestartReason.memoryLimitExceeded t s
    else s
  | Event.uptimeReached t =>
    if s.phase = Phase.Running ∧ s.startTime + p.minUptimeMs ≤ t then
      { s with counter := 0 }
    else s
  | Event.backoffElapsed =>
    if s.phase = Phase.Crashed ∧ s.scheduledDelay.isSome then
      { s with phase := Phase.Starting, counter := s.counter + 1,
               scheduledDelay := none }
    else s
  | Event.stopRequest =>
    if s.phase = Phase.Running ∨ s.phase = Phase.Starting then
      { s with phase := Phase.Stopping, stopRequested := true,
               scheduledDelay := none }
    else if s.phase = Phase.Crashed then
      { s with phase := Phase.Terminated, stopRequested := true,
               scheduledDelay := none }
    else s
  | Event.childExited =>
    if s.phase = Phase.Stopping then
      { s with phase := Phase.Terminated, alive := 0 }
    else s
  | Event.killTimeoutFired =>
    if s.phase = Phase.Stopping then
      { s with phase := Phase.Terminated, alive := 0,
               forcefulSignals := s.forcefulSignals + 1 }
    else s

/-- Running the Supervisor over a sequence of events. -/
def run (p : Policy) (s : RuntimeState) (evs : List Event) : RuntimeState :=
  evs.foldl (step p) s

/-- A state the Supervisor can reach from its initial state. -/
def Reachable (p : Policy) (s : RuntimeState) : Prop :=
  ∃ evs, run p initState evs = s

/-- Modelled from the spec: the two captured standard streams of the child
(spec section 4.3). -/
inductive LogStream where
  | stdout
  | stderr
deriving Repr, DecidableEq

/-- Modelled from the spec: one line written by the child on one of its
standard streams, tagged with its arrival time in milliseconds. -/
structure LogWrite where
  stream : LogStream
  arrival : Nat
  line : String
deriving Repr, DecidableEq

/-- Calendar date and time of day used to render a log timestamp. -/
structure DateParts where
  year : Nat
  month : Nat
  day : Nat
  hour : Nat
  minute : Nat
  second : Nat
deriving Repr, DecidableEq

/-- Civil date from a count of days since 1970-01-01 (proleptic Gregorian
calendar). -/
def civilFromDays (z : Nat) : Nat × Nat × Nat :=
  let z2 := z + 719468
  let era := z2 / 146097
  let doe := z2 % 146097
  let yoe := (doe - doe / 1460 + doe / 36524 - doe / 146096) / 365
  let y := yoe + era * 400
  let doy := doe - (365 * yoe + yoe / 4 - yoe / 100)
  let mp := (5 * doy + 2) / 153
  let d := doy - (153 * mp + 2) / 5 + 1
  let m := if mp < 10 then mp + 3 else mp - 9
  (if m ≤ 2 then y + 1 else y, m, d)

/-- Date and time of day (UTC) of a timestamp in milliseconds since the
epoch. -/
def datePartsOfMillis (ms : Nat) : DateParts :=
  let secs := ms / 1000
  let days := secs / 86400
  let rem := secs % 86400
  let ymd := civilFromDays days
  { year := ymd.1, month := ymd.2.1, day := ymd.2.2,
    hour := rem / 3600, minute := rem % 3600 / 60, second := rem % 60 }

def pad2 (n : Nat) : String :=
  if n < 10 then "0" ++ toString n else toString n

def pad4 (n : Nat) : String :=
  if n < 10 then "000" ++ toString n
  else if n < 100 then "00" ++ toString n
  else if n < 1000 then "0" ++ toString n
  else toString n

/-- Modelled from the spec: rendering of the strftime-like
`log_date_format` pattern (spec section 6).  Date tokens are substituted
with the zero-padded fields of the date; `Z` renders the UTC offset; every
other character is copied. -/
def substTokens (d : DateParts) : List Char → List Char
  | 'Y' :: 'Y' :: 'Y' :: 'Y' :: rest => (pad4 d.year).data ++ substTokens d rest
  | 'M' :: 'M' :: rest => (pad2 d.month).data ++ substTokens d rest
  | 'D' :: 'D' :: rest => (pad2 d.day).data ++ substTokens d rest
  | 'H' :: 'H' :: rest => (pad2 d.hour).data ++ substTokens d rest
  | 'm' :: 'm' :: rest => (pad2 d.minute).data ++ substTokens d rest
  | 's' :: 's' :: rest => (pad2 d.second).data ++ substTokens d rest
  | 'Z' :: rest => "+00:00".data ++ substTokens d rest
  | c :: rest => c :: substTokens d rest
  | [] => []

/-- The timestamp of a log line, rendered with the configured date
format. -/
def renderTimestamp (fmt : String) (t : Nat) : String :=
  String.mk (substTokens (datePartsOfMillis t) fmt.data)

/-- Modelled from the spec: a captured log line as it is appended to a log
file (spec section 4.3): when `time` is enabled the line is prefixed with
its rendered timestamp. -/
def formatLine (cfg : AppConfig) (w : LogWrite) : String :=
  if cfg.time then
    renderTimestamp cfg.log_date_format w.arrival ++ (": " ++ w.line)
  else w.line

/-- Modelled from the spec: the combined log file interleaves both streams
in arrival order (spec section 4.3); its lines are the formatted writes in
the order they arrived. -/
def combinedLog (cfg : AppConfig) (ws : List LogWrite) : List String :=
  ws.map (formatLine cfg)

/-- Modelled from the spec: the per-stream log file holds the formatted
writes of one stream, flushed in arrival order (spec section 4.3). -/
def streamLog (cfg : AppConfig) (st : LogStream) (ws : List LogWrite) :
    List String :=
  (ws.filter (fun w => w.stream == st)).map (formatLine cfg)

/-- One full crash/restart cycle: a crash at `t1`, the backoff delay
elapsing, and a successful respawn at `t2`. -/
def crashRestartCycle (t1 t2 : Nat) : List Event :=
  [Event.crash t1, Event.backoffElapsed, Event.spawnOk t2]

/-- Ten crash/restart cycles inside one 60s counter window, after an
initial successful spawn: the in-window counter reaches the configured
budget of 10 while the child is running again. -/
def tenCrashTrace : List Event :=
  Event.spawnOk 0 ::
    (List.range 10).flatMap
      (fun i => crashRestartCycle (100 * (i + 1)) (100 * (i + 1) + 1))

/-- Two immediate crash/restart cycles followed by a stable run: spawn at
0, crash at 100 and 300 (restarting in between), respawn at 400. -/
def twoCrashTrace : List Event :=
  [Event.spawnOk 0, Event.crash 100, Event.backoffElapsed, Event.spawnOk 200,
   Event.crash 300, Event.backoffElapsed, Event.spawnOk 400]

/-- The min-uptime scenario: two immediate crashes, then a stable run past
min_uptime (reached at 31000 ms), then a further crash at 31100 ms. -/
def stableThenCrashTrace : List Event :=
  twoCrashTrace ++ [Event.uptimeReached 31000, Event.crash 31100]

/-- The fallback element used when indexing a list of writes. -/
def defaultWrite : LogWrite :=
  { stream := LogStream.stdout, arrival := 0, line := "" }

/-- A concrete stdout write arriving at 1000 ms. -/
def sampleWrite0 : LogWrite :=
  { stream := LogStream.stdout, arrival := 1000, line := "tick" }

/-- A concrete stderr write arriving at 2000 ms. -/
def sampleWrite1 : LogWrite :=
  { stream := LogStream.stderr, arrival := 2000, line := "boom" }

/-- A concrete pair of interleaved writes, stdout first then stderr. -/
def sampleWrites : List LogWrite :=
  [sampleWrite0, sampleWrite1]

/-- A concrete running state: the state after a single successful spawn. -/
def runningState : RuntimeState :=
  { phase := Phase.Running
    counter := 0
    windowStart := 0
    startTime := 0
    alive := 1
    forcefulSignals := 0
    stopRequested := false
    scheduledDelay := none
    reasons := [] }

/-- The inductive invariant of the Supervisor: the in-window counter never
exceeds the restart budget, a scheduled restart implies the counter is
strictly below the budget, never more than one child instance is alive, the
forceful-termination signal is sent at most once and only on the way to
`Terminated`, and once a stop was requested the phase is `Stopping` or
`Terminated`. -/
def Inv (p : Policy) (s : RuntimeState) : Prop :=
  s.counter ≤ p.maxRestarts ∧
  (s.scheduledDelay.isSome → s.counter < p.maxRestarts) ∧
  s.alive ≤ 1 ∧
  s.forcefulSignals ≤ 1 ∧
  (s.forcefulSignals = 1 → s.phase = Phase.Terminated) ∧
  (s.stopRequested = true → s.phase = Phase.Stopping ∨ s.phase = Phase.Terminated)

theorem inv_initState (p : Policy) : Inv p initState := by
  refine ⟨?_, ?_, ?_, ?_, ?_, ?_⟩ <;> simp [initState, Inv]

theorem rolledCounter_le (p : Policy) (t : Nat) (s : RuntimeState) :
    rolledCounter p t s ≤ s.counter ∨ rolledCounter p t s = 0 := by
  simp only [rolledCounter]
  split
  · exact Or.inr rfl
  · exact Or.inl le_rfl

theorem inv_crashCycle (p : Policy) (r : RestartReason) (t : Nat)
    (s : RuntimeState) (h : Inv p s)
    (hph : s.phase = Phase.Starting ∨ s.phase = Phase.Running) :
    Inv p (crashCycle p r t s) := by
  obtain ⟨h1, h2, h3, h4, h5, h6⟩ := h
  have hfs : s.forcefulSignals = 0 := by
    rcases Nat.lt_or_ge s.forcefulSignals 1 with hlt | hge
    · omega
    · exfalso
      have := h5 (by omega)
      rcases hph with hph | hph <;> rw [hph] at this <;> exact Phase.noConfusion this
  have hsr : s.stopRequested = false := by
    cases hsr : s.stopRequested
    · rfl
    · exfalso
      rcases h6 hsr with hc | hc <;> rcases hph with hph | hph <;>
        rw [hph] at hc <;> exact Phase.noConfusion hc
  have hc : rolledCounter p t s ≤ p.maxRestarts := by
    rcases rolledCounter_le p t s with hle | hz
    · omega
    · omega
  simp only [crashCycle]
  split
  · exact ⟨by simpa using hc, by intro _; simpa using ‹rolledCounter p t s < p.maxRestarts›,
      by simp, by simp [hfs], by simp [hfs], by simp [hsr]⟩
  · exact ⟨by simpa using hc, by simp, by simp, by simp [hfs], by simp [hfs],
      by simp⟩

theorem inv_step (p : Policy) (s : RuntimeState) (e : Event) (h : Inv p s) :
    Inv p (step p s e) := by
  obtain ⟨h1, h2, h3, h4, h5, h6⟩ := h
  cases e with
  | spawnOk t =>
    simp only [step]
    split
    · rename_i hph
      have hfs : s.forcefulSignals = 0 := by
        rcases Nat.lt_or_ge s.forcefulSignals 1 with hlt | hge
        · omega
        · exact absurd (h5 (by omega)) (by rw [hph]; exact fun hc => Phase.noConfusion hc)
      have hsr : s.stopRequested = false := by
        cases hsr : s.stopRequested
        · rfl
        · exact absurd (h6 hsr) (by rw [hph]; rintro (hc | hc) <;> exact Phase.noConfusion hc)
      exact ⟨h1, by simp, by simp, by simp [hfs], by simp [hfs], by simp [hsr]⟩
    · exact ⟨h1, h2, h3, h4, h5, h6⟩
  | spawnFail t =>
    simp only [step]
    split
    · exact inv_crashCycle p _ t s ⟨h1, h2, h3, h4, h5, h6⟩ (Or.inl ‹_›)
    · exact ⟨h1, h2, h3, h4, h5, h6⟩
  | crash t =>
    simp only [step]
    split
    · exact inv_crashCycle p _ t s ⟨h1, h2, h3, h4, h5, h6⟩ (Or.inr ‹_›)
    · exact ⟨h1, h2, h3, h4, h5, h6⟩
  | memSample bytes t =>
    simp only [step]
    split
    · rename_i hcond
      exact inv_crashCycle p _ t s ⟨h1, h2, h3, h4, h5, h6⟩ (Or.inr hcond.1)
    · exact ⟨h1, h2, h3, h4, h5, h6⟩
  | uptimeReached t =>
    simp only [step]
    split
    · refine ⟨by simp, ?_, by simpa using h3, by simpa using h4,
        by simpa using h5, by simpa using h6⟩
      intro hs
      have := h2 (by simpa using hs)
      simp only []
      omega
    · exact ⟨h1, h2, h3, h4, h5, h6⟩
  | backoffElapsed =>
    simp only [step]
    split
    · rename_i hcond
      have hlt : s.counter < p.maxRestarts := h2 hcond.2
      have hfs : s.forcefulSignals = 0 := by
        rcases Nat.lt_or_ge s.forcefulSignals 1 with hlt2 | hge
        · omega
        · exact absurd (h5 (by omega))
            (by rw [hcond.1]; exact fun hc => Phase.noConfusion hc)
      have hsr : s.stopRequested = false := by
        cases hsr : s.stopRequested
        · rfl
        · exact absurd (h6 hsr)
            (by rw [hcond.1]; rintro (hc | hc) <;> exact Phase.noConfusion hc)
      exact ⟨by simpa using hlt, by simp, by simpa using h3, by simp [hfs],
        by simp [hfs], by simp [hsr]⟩
    · exact ⟨h1, h2, h3, h4, h5, h6⟩
  | stopRequest =>
    simp only [step]
    split
    · rename_i hph
      have hfs : s.forcefulSignals = 0 := by
        rcases Nat.lt_or_ge s.forcefulSignals 1 with hlt | hge
        · omega
        · exact absurd (h5 (by omega))
            (by rcases hph with hph | hph <;> rw [hph] <;>
              exact fun hc => Phase.noConfusion hc)
      exact ⟨h1, by simp, by simpa using h3, by simp [hfs], by simp [hfs], by simp⟩
    · split
      · exact ⟨h1, by simp, by simpa using h3, by simpa using h4, by simp,
          by simp⟩
      · exact ⟨h1, h2, h3, h4, h5, h6⟩
  | childExited =>
    simp only [step]
    split
    · exact ⟨h1, by simpa using h2, by simp, by simpa using h4, by simp, by simp⟩
    · exact ⟨h1, h2, h3, h4, h5, h6⟩
  | killTimeoutFired =>
    simp only [step]
    split
    · rename_i hph
      have hfs : s.forcefulSignals = 0 := by
        rcases Nat.lt_or_ge s.forcefulSignals 1 with hlt | hge
        · omega
        · exact absurd (h5 (by omega)) (by rw [hph]; exact fun hc => Phase.noConfusion hc)
      exact ⟨h1, by simpa using h2, by simp, by simp [hfs], by simp, by simp⟩
    · exact ⟨h1, h2, h3, h4, h5, h6⟩

theorem inv_run (p : Policy) (s : RuntimeState) (evs : List Event)
    (h : Inv p s) : Inv p (run p s evs) := by
  induction evs generalizing s with
  | nil => exact h
  | cons e evs ih =>
    rw [run, List.foldl_cons]
    exact ih (step p s e) (inv_step p s e h)

theorem reachable_inv (p : Policy) (s : RuntimeState) (h : Reachable p s) :
    Inv p s := by
  obtain ⟨evs, hevs⟩ := h
  rw [← hevs]
  exact inv_run p initState evs (inv_initState p)

/-- `Terminated` is absorbing: no event changes the state once the
Supervisor has terminated, so in particular no restart is ever attempted. -/
theorem step_terminated (p : Policy) (s : RuntimeState) (e : Event)
    (h : s.phase = Phase.Terminated) : step p s e = s := by
  cases e <;> simp [step, h]

theorem run_terminated (p : Policy) (s : RuntimeState) (evs : List Event)
    (h : s.phase = Phase.Terminated) : run p s evs = s := by
  induction evs with
  | nil => rfl
  | cons e evs ih =>
    rw [run, List.foldl_cons, step_terminated p s e h]
    exact ih

/-- C7: at every point in every execution, at most one child process
instance is alive; restart attempts are strictly serialized because the
configuration sets `instances` to 1 and `exec_mode` to single-process
fork. -/
theorem single_instance_spec (s : RuntimeState)
    (hr : Reachable bybitPolicy s) :
    bybitLogger.instances = 1 ∧ bybitLogger.exec_mode = "fork" ∧
    s.alive ≤ 1 :=
  ⟨rfl, rfl, (reachable_inv bybitPolicy s hr).2.2.1⟩

theorem single_instance_witness :
    Reachable bybitPolicy runningState ∧
    (bybitLogger.instances = 1 ∧ bybitLogger.exec_mode = "fork" ∧
      runningState.alive ≤ 1) :=
  ⟨⟨[Event.spawnOk 0], rfl⟩,
    single_instance_spec runningState ⟨[Event.spawnOk 0], rfl⟩⟩

/-- C9 (counterexample): not every key appearing in the configuration
mappings is recognized: the secondary configuration `src/unnamed/part_000`
contains the key `restart_on_exit`, which is not among the recognized keys
of the configuration-format interface, so the static validator rejects
that mapping. -/
theorem unknown_key_counterexample :
    "restart_on_exit" ∈ part000Keys ∧
    "restart_on_exit" ∉ recognizedKeys ∧
    validKeys part000Keys = false := by decide

/-- C9 (amended): every key appearing in the `src/ecosystem.config.js`
mapping is recognized and the static validator accepts it, while the
secondary configuration `src/unnamed/part_000` carries the unrecognized
key `restart_on_exit` and is rejected by the validator. -/
theorem recognized_keys_amended :
    validKeys ecosystemKeys = true ∧
    validKeys part000Keys = false ∧
    "restart_on_exit" ∈ part000Keys := by decide

/-- C2: in every reachable run of the restart state machine the in-window
counter never exceeds `max_restarts` (10); a crash while the in-window
counter already equals `max_restarts` transitions the state to
`Terminated`, not `Starting`, and no further automatic restart is
attempted. -/
theorem restart_budget_spec (s s2 : RuntimeState) (t : Nat)
    (evs : List Event)
    (hr : Reachable bybitPolicy s) (hr2 : Reachable bybitPolicy s2)
    (hph : s.phase = Phase.Running)
    (hc : s.counter = bybitPolicy.maxRestarts)
    (hw : t - s.windowStart < bybitPolicy.windowLen) :
    bybitPolicy.maxRestarts = 10 ∧
    s2.counter ≤ bybitPolicy.maxRestarts ∧
    (step bybitPolicy s (Event.crash t)).phase = Phase.Terminated ∧
    (step bybitPolicy s (Event.crash t)).phase ≠ Phase.Starting ∧
    run bybitPolicy (step bybitPolicy s (Event.crash t)) evs
      = step bybitPolicy s (Event.crash t) := by
  have hrc : rolledCounter bybitPolicy t s = s.counter := by
    rw [rolledCounter, if_neg]
    omega
  have hstep : step bybitPolicy s (Event.crash t)
      = crashCycle bybitPolicy RestartReason.unexpectedExit t s := by
    simp [step, hph]
  have hterm : (step bybitPolicy s (Event.crash t)).phase = Phase.Terminated := by
    rw [hstep, crashCycle, if_neg]
    rw [hrc, hc]
    exact lt_irrefl _
  refine ⟨rfl, (reachable_inv bybitPolicy s2 hr2).1, hterm, ?_, ?_⟩
  · rw [hterm]
    exact fun hcon => Phase.noConfusion hcon
  · exact run_terminated bybitPolicy _ evs hterm

theorem restart_budget_witness :
    Reachable bybitPolicy (run bybitPolicy initState tenCrashTrace) ∧
    Reachable bybitPolicy initState ∧
    (run bybitPolicy initState tenCrashTrace).phase = Phase.Running ∧
    (run bybitPolicy initState tenCrashTrace).counter
      = bybitPolicy.maxRestarts ∧
    2000 - (run bybitPolicy initState tenCrashTrace).windowStart
      < bybitPolicy.windowLen ∧
    (bybitPolicy.maxRestarts = 10 ∧
      initState.counter ≤ bybitPolicy.maxRestarts ∧
      (step bybitPolicy (run bybitPolicy initState tenCrashTrace)
          (Event.crash 2000)).phase = Phase.Terminated ∧
      (step bybitPolicy (run bybitPolicy initState tenCrashTrace)
          (Event.crash 2000)).phase ≠ Phase.Starting ∧
      run bybitPolicy
          (step bybitPolicy (run bybitPolicy initState tenCrashTrace)
            (Event.crash 2000))
          [Event.backoffElapsed, Event.spawnOk 3000]
        = step bybitPolicy (run bybitPolicy initState tenCrashTrace)
            (Event.crash 2000)) :=
  ⟨⟨tenCrashTrace, rfl⟩, ⟨[], rfl⟩, by decide, by decide, by decide,
    restart_budget_spec (run bybitPolicy initState tenCrashTrace) initState
      2000 [Event.backoffElapsed, Event.spawnOk 3000]
      ⟨tenCrashTrace, rfl⟩ ⟨[], rfl⟩ (by decide) (by decide) (by decide)⟩

/-- C1: for every restart attempt `k ≥ 1` (within the restart budget), the
backoff delay the Supervisor waits before the `k`-th restart equals base
delay plus `k` times the exponential increment — with this configuration
`5000 + k × 100` ms, with no ceiling applied — and the attempt increments
the window counter. -/
theorem backoff_delay_spec (k : Nat) (hk : 1 ≤ k) (s : RuntimeState)
    (t : Nat) (hph : s.phase = Phase.Running) (hc : s.counter + 1 = k)
    (hcap : k ≤ bybitPolicy.maxRestarts)
    (hw : t - s.windowStart < bybitPolicy.windowLen) :
    backoffDelay bybitPolicy k = 5000 + k * 100 ∧
    (step bybitPolicy s (Event.crash t)).scheduledDelay
      = some (5000 + k * 100) ∧
    (step bybitPolicy (step bybitPolicy s (Event.crash t))
        Event.backoffElapsed).counter = k ∧
    (step bybitPolicy (step bybitPolicy s (Event.crash t))
        Event.backoffElapsed).phase = Phase.Starting := by
  have hrc : rolledCounter bybitPolicy t s = s.counter := by
    rw [rolledCounter, if_neg]
    omega
  have hlt : s.counter < bybitPolicy.maxRestarts := by omega
  have hstep : step bybitPolicy s (Event.crash t)
      = crashCycle bybitPolicy RestartReason.unexpectedExit t s := by
    simp [step, hph]
  have hcc : crashCycle bybitPolicy RestartReason.unexpectedExit t s
      = { s with phase := Phase.Crashed, alive := 0,
                 counter := s.counter,
                 windowStart := rolledWindowStart bybitPolicy t s,
                 reasons := s.reasons ++ [RestartReason.unexpectedExit],
                 scheduledDelay :=
                   some (backoffDelay bybitPolicy (s.counter + 1)) } := by
    rw [crashCycle, if_pos]
    · rw [hrc]
    · rw [hrc]
      exact hlt
  refine ⟨rfl, ?_, ?_, ?_⟩
  · rw [hstep, hcc, hc]
    rfl
  · rw [hstep, hcc]
    simp [step]
    omega
  · rw [hstep, hcc]
    simp [step]

/-- C3: whenever the child has run continuously for at least min_uptime
(30s) while in the `Running` state, the consecutive-restart counter is
reset to zero; in the scenario of two immediate crashes (counter = 2)
followed by a stable run of at least min_uptime, the next crash is counted
as restart attempt 1. -/
theorem min_uptime_reset_spec (s : RuntimeState) (t : Nat)
    (hph : s.phase = Phase.Running)
    (hup : s.startTime + bybitPolicy.minUptimeMs ≤ t) :
    bybitPolicy.minUptimeMs = 30000 ∧
    (step bybitPolicy s (Event.uptimeReached t)).counter = 0 ∧
    (run bybitPolicy initState twoCrashTrace).counter = 2 ∧
    (run bybitPolicy initState stableThenCrashTrace).counter = 0 ∧
    (run bybitPolicy initState stableThenCrashTrace).scheduledDelay
      = some (backoffDelay bybitPolicy 1) ∧
    (run bybitPolicy initState
        (stableThenCrashTrace ++ [Event.backoffElapsed])).counter = 1 := by
  refine ⟨by decide, ?_, by decide, by decide, by decide, by decide⟩
  simp [step, hph, hup]

/-- C4: if a memory sample is at or above the configured ceiling
`max_memory_restart` ("200M"), the Supervisor issues exactly one forced
restart following the same path as a crash (`Running→Crashed→Starting`)
and logs the breach-specific reason `memoryLimitExceeded`, distinct from a
natural crash; a sample below the ceiling leaves the state untouched. -/
theorem memory_breach_spec (s : RuntimeState) (bytes low t : Nat)
    (hph : s.phase = Phase.Running)
    (hmem : bybitPolicy.memLimitBytes ≤ bytes)
    (hlow : low < bybitPolicy.memLimitBytes)
    (hcap : s.counter < bybitPolicy.maxRestarts)
    (hw : t - s.windowStart < bybitPolicy.windowLen) :
    bybitPolicy.memLimitBytes = parseSizeBytes "200M" ∧
    (step bybitPolicy s (Event.memSample bytes t)).phase = Phase.Crashed ∧
    (step bybitPolicy s (Event.memSample bytes t)).reasons
      = s.reasons ++ [RestartReason.memoryLimitExceeded] ∧
    (step bybitPolicy s (Event.memSample bytes t)).scheduledDelay
      = some (backoffDelay bybitPolicy (s.counter + 1)) ∧
    (step bybitPolicy (step bybitPolicy s (Event.memSample bytes t))
        Event.backoffElapsed).phase = Phase.Starting ∧
    RestartReason.memoryLimitExceeded ≠ RestartReason.unexpectedExit ∧
    step bybitPolicy s (Event.memSample low t) = s := by
  have hrc : rolledCounter bybitPolicy t s = s.counter := by
    rw [rolledCounter, if_neg]
    omega
  have hstep : step bybitPolicy s (Event.memSample bytes t)
      = crashCycle bybitPolicy RestartReason.memoryLimitExceeded t s := by
    simp [step, hph, hmem]
  have hcc : crashCycle bybitPolicy RestartReason.memoryLimitExceeded t s
      = { s with phase := Phase.Crashed, alive := 0,
                 counter := s.counter,
                 windowStart := rolledWindowStart bybitPolicy t s,
                 reasons := s.reasons ++ [RestartReason.memoryLimitExceeded],
                 scheduledDelay :=
                   some (backoffDelay bybitPolicy (s.counter + 1)) } := by
    rw [crashCycle, if_pos]
    · rw [hrc]
    · rw [hrc]
      exact hcap
  refine ⟨rfl, ?_, ?_, ?_, ?_, ?_, ?_⟩
  · rw [hstep, hcc]
  · rw [hstep, hcc]
  · rw [hstep, hcc]
  · rw [hstep, hcc]
    simp [step]
  · intro hcon
    exact RestartReason.noConfusion hcon
  · simp [step, hph]
    omega

/-- C5: after a supervisor-initiated stop request from `Running`, if the
child has not exited when the kill-timeout (5000 ms per configuration)
timer fires, the forceful-termination signal is sent exactly once, the
state is forced to `Terminated` bypassing `Crashed`, and no restart is
ever attempted afterwards. -/
theorem shutdown_spec (s : RuntimeState) (evs : List Event)
    (hr : Reachable bybitPolicy s) (hph : s.phase = Phase.Running) :
    bybitPolicy.killTimeoutMs = 5000 ∧
    (step bybitPolicy s Event.stopRequest).phase = Phase.Stopping ∧
    (step bybitPolicy s Event.stopRequest).phase ≠ Phase.Crashed ∧
    (step bybitPolicy (step bybitPolicy s Event.stopRequest)
        Event.killTimeoutFired).phase = Phase.Terminated ∧
    (step bybitPolicy (step bybitPolicy s Event.stopRequest)
        Event.killTimeoutFired).forcefulSignals = 1 ∧
    run bybitPolicy
        (step bybitPolicy (step bybitPolicy s Event.stopRequest)
          Event.killTimeoutFired) evs
      = step bybitPolicy (step bybitPolicy s Event.stopRequest)
          Event.killTimeoutFired := by
  obtain ⟨h1, h2, h3, h4, h5, h6⟩ := reachable_inv bybitPolicy s hr
  have hfs : s.forcefulSignals = 0 := by
    rcases Nat.lt_or_ge s.forcefulSignals 1 with hlt | hge
    · omega
    · exact absurd (h5 (by omega))
        (by rw [hph]; exact fun hcon => Phase.noConfusion hcon)
  have hs1 : step bybitPolicy s Event.stopRequest
      = { s with phase := Phase.Stopping, stopRequested := true,
                 scheduledDelay := none } := by
    simp [step, hph]
  have hs2 : step bybitPolicy (step bybitPolicy s Event.stopRequest)
      Event.killTimeoutFired
      = { s with phase := Phase.Terminated, alive := 0,
                 stopRequested := true, scheduledDelay := none,
                 forcefulSignals := s.forcefulSignals + 1 } := by
    rw [hs1]
    simp [step]
  refine ⟨rfl, ?_, ?_, ?_, ?_, ?_⟩
  · rw [hs1]
  · rw [hs1]
    exact fun hcon => Phase.noConfusion hcon
  · rw [hs2]
  · rw [hs2]
    simp [hfs]
  · refine run_terminated bybitPolicy _ evs ?_
    rw [hs2]

/-- C6: a spawn failure is handled identically to a crash: the resulting
phase, counter and scheduled backoff delay agree with those of an
unexpected exit, the state transitions to `Crashed`, the retry increments
the restart counter and goes back to `Starting` under the backoff
policy. -/
theorem spawn_failure_spec (s : RuntimeState) (t : Nat)
    (hph : s.phase = Phase.Starting)
    (hcap : s.counter < bybitPolicy.maxRestarts)
    (hw : t - s.windowStart < bybitPolicy.windowLen) :
    step bybitPolicy s (Event.spawnFail t)
      = crashCycle bybitPolicy RestartReason.spawnFailure t s ∧
    (step bybitPolicy s (Event.spawnFail t)).phase
      = (step bybitPolicy { s with phase := Phase.Running }
          (Event.crash t)).phase ∧
    (step bybitPolicy s (Event.spawnFail t)).counter
      = (step bybitPolicy { s with phase := Phase.Running }
          (Event.crash t)).counter ∧
    (step bybitPolicy s (Event.spawnFail t)).scheduledDelay
      = (step bybitPolicy { s with phase := Phase.Running }
          (Event.crash t)).scheduledDelay ∧
    (step bybitPolicy s (Event.spawnFail t)).phase = Phase.Crashed ∧
    (step bybitPolicy s (Event.spawnFail t)).reasons
      = s.reasons ++ [RestartReason.spawnFailure] ∧
    (step bybitPolicy (step bybitPolicy s (Event.spawnFail t))
        Event.backoffElapsed).counter = s.counter + 1 ∧
    (step bybitPolicy (step bybitPolicy s (Event.spawnFail t))
        Event.backoffElapsed).phase = Phase.Starting := by
  have hrc : rolledCounter bybitPolicy t s = s.counter := by
    rw [rolledCounter, if_neg]
    omega
  have hstep : step bybitPolicy s (Event.spawnFail t)
      = crashCycle bybitPolicy RestartReason.spawnFailure t s := by
    simp [step, hph]
  have hcrash : step bybitPolicy { s with phase := Phase.Running }
      (Event.crash t)
      = crashCycle bybitPolicy RestartReason.unexpectedExit t
          { s with phase := Phase.Running } := by
    simp [step]
  have hcc : crashCycle bybitPolicy RestartReason.spawnFailure t s
      = { s with phase := Phase.Crashed, alive := 0,
                 counter := s.counter,
                 windowStart := rolledWindowStart bybitPolicy t s,
                 reasons := s.reasons ++ [RestartReason.spawnFailure],
                 scheduledDelay :=
                   some (backoffDelay bybitPolicy (s.counter + 1)) } := by
    rw [crashCycle, if_pos]
    · rw [hrc]
    · rw [hrc]
      exact hcap
  have hcc2 : crashCycle bybitPolicy RestartReason.unexpectedExit t
      { s with phase := Phase.Running }
      = { s with phase := Phase.Crashed, alive := 0,
                 counter := s.counter,
                 windowStart := rolledWindowStart bybitPolicy t s,
                 reasons := s.reasons ++ [RestartReason.unexpectedExit],
                 scheduledDelay :=
                   some (backoffDelay bybitPolicy (s.counter + 1)) } := by
    rw [crashCycle, if_pos]
    · rw [show rolledCounter bybitPolicy t { s with phase := Phase.Running }
          = s.counter from hrc]
      rw [show rolledWindowStart bybitPolicy t { s with phase := Phase.Running }
          = rolledWindowStart bybitPolicy t s from rfl]
    · rw [show rolledCounter bybitPolicy t { s with phase := Phase.Running }
          = s.counter from hrc]
      exact hcap
  refine ⟨hstep, ?_, ?_, ?_, ?_, ?_, ?_, ?_⟩
  · rw [hstep, hcc, hcrash, hcc2]
  · rw [hstep, hcc, hcrash, hcc2]
  · rw [hstep, hcc, hcrash, hcc2]
  · rw [hstep, hcc]
  · rw [hstep, hcc]
  · rw [hstep, hcc]
    simp [step]
  · rw [hstep, hcc]
    simp [step]

/-- C8: for writes to stdout and stderr ordered by arrival, the combined
log lists them interleaved in real arrival order (the `i`-th combined line
is the formatted `i`-th write and arrival times are monotone along the
log), each per-stream log is flushed in arrival order (it is a sublist of
the combined log), and since `time` is enabled every line is prefixed with
the timestamp of its arrival rendered in the configured
`log_date_format`. -/
theorem log_order_spec (ws : List LogWrite) (i j : Nat) (w : LogWrite)
    (hs : List.Sorted (fun a b => a.arrival ≤ b.arrival) ws)
    (hi : i < ws.length) (hj : j < ws.length) (hij : i ≤ j)
    (hmem : w ∈ ws) :
    bybitLogger.time = true ∧
    (combinedLog bybitLogger ws).length = ws.length ∧
    (combinedLog bybitLogger ws).getD i ""
      = formatLine bybitLogger (ws.getD i defaultWrite) ∧
    (ws.getD i defaultWrite).arrival ≤ (ws.getD j defaultWrite).arrival ∧
    List.Sublist (streamLog bybitLogger LogStream.stdout ws)
      (combinedLog bybitLogger ws) ∧
    List.Sublist (streamLog bybitLogger LogStream.stderr ws)
      (combinedLog bybitLogger ws) ∧
    formatLine bybitLogger w
      = renderTimestamp bybitLogger.log_date_format w.arrival
          ++ (": " ++ w.line) := by
  have hlen : (combinedLog bybitLogger ws).length = ws.length := by
    simp [combinedLog]
  have hic : i < (combinedLog bybitLogger ws).length := by
    rw [hlen]
    exact hi
  refine ⟨rfl, hlen, ?_, ?_, ?_, ?_, rfl⟩
  · rw [List.getD_eq_getElem _ _ hic, List.getD_eq_getElem _ _ hi]
    simp only [combinedLog]
    exact List.getElem_map (formatLine bybitLogger)
  · rcases Nat.eq_or_lt_of_le hij with heq | hlt
    · subst heq
      exact le_rfl
    · rw [List.getD_eq_getElem _ _ hi, List.getD_eq_getElem _ _ hj]
      exact List.pairwise_iff_get.mp hs ⟨i, hi⟩ ⟨j, hj⟩ hlt
  · exact List.Sublist.map _ (List.filter_sublist ws)
  · exact List.Sublist.map _ (List.filter_sublist ws)

theorem log_order_witness :
    List.Sorted (fun a b => a.arrival ≤ b.arrival) sampleWrites ∧
    0 < sampleWrites.length ∧ 1 < sampleWrites.length ∧ (0 : Nat) ≤ 1 ∧
    sampleWrite0 ∈ sampleWrites ∧
    (bybitLogger.time = true ∧
      (combinedLog bybitLogger sampleWrites).length = sampleWrites.length ∧
      (combinedLog bybitLogger sampleWrites).getD 0 ""
        = formatLine bybitLogger (sampleWrites.getD 0 defaultWrite) ∧
      (sampleWrites.getD 0 defaultWrite).arrival
        ≤ (sampleWrites.getD 1 defaultWrite).arrival ∧
      List.Sublist (streamLog bybitLogger LogStream.stdout sampleWrites)
        (combinedLog bybitLogger sampleWrites) ∧
      List.Sublist (streamLog bybitLogger LogStream.stderr sampleWrites)
        (combinedLog bybitLogger sampleWrites) ∧
      formatLine bybitLogger sampleWrite0
        = renderTimestamp bybitLogger.log_date_format sampleWrite0.arrival
            ++ (": " ++ sampleWrite0.line)) :=
  ⟨by decide, by decide, by decide, by decide, by decide,
    log_order_spec sampleWrites 0 1 sampleWrite0 (by decide) (by decide)
      (by decide) (by decide) (by decide)⟩

theorem backoff_delay_witness :
    1 ≤ 1 ∧ runningState.phase = Phase.Running ∧
    runningState.counter + 1 = 1 ∧ 1 ≤ bybitPolicy.maxRestarts ∧
    1000 - runningState.windowStart < bybitPolicy.windowLen ∧
    (backoffDelay bybitPolicy 1 = 5000 + 1 * 100 ∧
      (step bybitPolicy runningState (Event.crash 1000)).scheduledDelay
        = some (5000 + 1 * 100) ∧
      (step bybitPolicy (step bybitPolicy runningState (Event.crash 1000))
          Event.backoffElapsed).counter = 1 ∧
      (step bybitPolicy (step bybitPolicy runningState (Event.crash 1000))
          Event.backoffElapsed).phase = Phase.Starting) :=
  ⟨by decide, by decide, by decide, by decide, by decide,
    backoff_delay_spec 1 (by decide) runningState 1000 (by decide)
      (by decide) (by decide) (by decide)⟩

theorem min_uptime_reset_witness :
    runningState.phase = Phase.Running ∧
    runningState.startTime + bybitPolicy.minUptimeMs ≤ 31000 ∧
    (bybitPolicy.minUptimeMs = 30000 ∧
      (step bybitPolicy runningState (Event.uptimeReached 31000)).counter
        = 0 ∧
      (run bybitPolicy initState twoCrashTrace).counter = 2 ∧
      (run bybitPolicy initState stableThenCrashTrace).counter = 0 ∧
      (run bybitPolicy initState stableThenCrashTrace).scheduledDelay
        = some (backoffDelay bybitPolicy 1) ∧
      (run bybitPolicy initState
          (stableThenCrashTrace ++ [Event.backoffElapsed])).counter = 1) :=
  ⟨by decide, by decide,
    min_uptime_reset_spec runningState 31000 (by decide) (by decide)⟩

theorem memory_breach_witness :
    runningState.phase = Phase.Running ∧
    bybitPolicy.memLimitBytes ≤ 209715200 ∧
    1024 < bybitPolicy.memLimitBytes ∧
    runningState.counter < bybitPolicy.maxRestarts ∧
    1000 - runningState.windowStart < bybitPolicy.windowLen ∧
    (bybitPolicy.memLimitBytes = parseSizeBytes "200M" ∧
      (step bybitPolicy runningState
          (Event.memSample 209715200 1000)).phase = Phase.Crashed ∧
      (step bybitPolicy runningState
          (Event.memSample 209715200 1000)).reasons
        = runningState.reasons ++ [RestartReason.memoryLimitExceeded] ∧
      (step bybitPolicy runningState
          (Event.memSample 209715200 1000)).scheduledDelay
        = some (backoffDelay bybitPolicy (runningState.counter + 1)) ∧
      (step bybitPolicy
          (step bybitPolicy runningState (Event.memSample 209715200 1000))
          Event.backoffElapsed).phase = Phase.Starting ∧
      RestartReason.memoryLimitExceeded ≠ RestartReason.unexpectedExit ∧
      step bybitPolicy runningState (Event.memSample 1024 1000)
        = runningState) :=
  ⟨by decide, by decide, by decide, by decide, by decide,
    memory_breach_spec runningState 209715200 1024 1000 (by decide)
      (by decide) (by decide) (by decide) (by decide)⟩

theorem shutdown_witness :
    Reachable bybitPolicy runningState ∧
    runningState.phase = Phase.Running ∧
    (bybitPolicy.killTimeoutMs = 5000 ∧
      (step bybitPolicy runningState Event.stopRequest).phase
        = Phase.Stopping ∧
      (step bybitPolicy runningState Event.stopRequest).phase
        ≠ Phase.Crashed ∧
      (step bybitPolicy (step bybitPolicy runningState Event.stopRequest)
          Event.killTimeoutFired).phase = Phase.Terminated ∧
      (step bybitPolicy (step bybitPolicy runningState Event.stopRequest)
          Event.killTimeoutFired).forcefulSignals = 1 ∧
      run bybitPolicy
          (step bybitPolicy (step bybitPolicy runningState Event.stopRequest)
            Event.killTimeoutFired)
          [Event.backoffElapsed, Event.spawnOk 9000, Event.killTimeoutFired]
        = step bybitPolicy (step bybitPolicy runningState Event.stopRequest)
            Event.killTimeoutFired) :=
  ⟨⟨[Event.spawnOk 0], rfl⟩, by decide,
    shutdown_spec runningState
      [Event.backoffElapsed, Event.spawnOk 9000, Event.killTimeoutFired]
      ⟨[Event.spawnOk 0], rfl⟩ (by decide)⟩

theorem spawn_failure_witness :
    initState.phase = Phase.Starting ∧
    initState.counter < bybitPolicy.maxRestarts ∧
    1000 - initState.windowStart < bybitPolicy.windowLen ∧
    (step bybitPolicy initState (Event.spawnFail 1000)
        = crashCycle bybitPolicy RestartReason.spawnFailure 1000 initState ∧
      (step bybitPolicy initState (Event.spawnFail 1000)).phase
        = (step bybitPolicy { initState with phase := Phase.Running }
            (Event.crash 1000)).phase ∧
      (step bybitPolicy initState (Event.spawnFail 1000)).counter
        = (step bybitPolicy { initState with phase := Phase.Running }
            (Event.crash 1000)).counter ∧
      (step bybitPolicy initState (Event.spawnFail 1000)).scheduledDelay
        = (step bybitPolicy { initState with phase := Phase.Running }
            (Event.crash 1000)).scheduledDelay ∧
      (step bybitPolicy initState (Event.spawnFail 1000)).phase
        = Phase.Crashed ∧
      (step bybitPolicy initState (Event.spawnFail 1000)).reasons
        = initState.reasons ++ [RestartReason.spawnFailure] ∧
      (step bybitPolicy (step bybitPolicy initState (Event.spawnFail 1000))
          Event.backoffElapsed).counter = initState.counter + 1 ∧
      (step bybitPolicy (step bybitPolicy initState (Event.spawnFail 1000))
          Event.backoffElapsed).phase = Phase.Starting) :=
  ⟨by decide, by decide, by decide,
    spawn_failure_spec initState 1000 (by decide) (by decide) (by decide)⟩

/-- C10: the three configured log file paths (`error_file`, `out_file`,
`log_file`) are pairwise distinct, so the stderr stream, the stdout stream
and the combined interleaved stream each go to a separate file. -/
theorem log_paths_distinct :
    bybitLogger.error_file ≠ bybitLogger.out_file ∧
    bybitLogger.out_file ≠ bybitLogger.log_file ∧
    bybitLogger.error_file ≠ bybitLogger.log_file := by decide

end BybitLogger
